import Mathlib

/-!
Verification of the AttackSurfaceX core engine: the event model, the
contextual risk scorer (`analyzer/risk.py`), the port-history ledger and
storage engine (`logger/storage.py`), the change detector
(`analyzer/diff.py`), and the ingestion pipeline of `main.py`.

Shallow embedding conventions:
* Python `int` is `Int` (scores) or `Nat` (ports, scan ids, counts where
  the source only ever produces naturals as row data stays `Int` when the
  column type is a plain integer).
* Python `datetime` timestamps are carried as their `isoformat()` strings
  (`String`); the code only stores and compares them.
* `Optional[str]` is `Option String`; Python truthiness of an optional
  string (`if not event.version`) treats both `None` and `""` as falsy.
* SQLite tables are lists of row structures; one `with sqlite3.connect`
  block is one committed transaction (commit on success, rollback of that
  block's writes when an exception escapes it).
-/

namespace AttackSurfaceX

/-- `parser/events.py` `PortStateEvent` dataclass.  The `event_type` tag
string is represented by the constructor of `SecurityEvent` below. -/
structure PortStateEvent where
  host : String
  timestamp : String
  port : Nat
  protocol : String
  state : String
  service : Option String
  product : Option String
  version : Option String
  deriving DecidableEq

/-- `parser/events.py` event hierarchy as a sum: `HostDiscoveredEvent`
(its `latency_ms` payload is read by no operation verified here) and
`PortStateEvent`. -/
inductive SecurityEvent where
  | hostDiscovered (host : String) (timestamp : String)
  | portState (e : PortStateEvent)
  deriving DecidableEq

/-- A row of the `port_history` table, and equally the dict returned by
`StorageEngine.get_port_history` and consumed by the scorer. -/
structure PortHistoryRecord where
  host : String
  port : Nat
  protocol : String
  first_seen : String
  last_seen : String
  seen_count : Int
  current_state : String
  deriving DecidableEq

/-! ## Risk scorer (`analyzer/risk.py`) -/

/-- `RiskScorer.SERVICE_RISK`: base risk scores by service name. -/
def SERVICE_RISK : List (String × Int) :=
  [("telnet", 10), ("ftp", 9), ("tftp", 9), ("rlogin", 10), ("rsh", 10),
   ("pptp", 9),
   ("rdp", 8), ("vnc", 8), ("smb", 8), ("microsoft-ds", 8),
   ("netbios-ssn", 7),
   ("smtp", 6), ("pop3", 6), ("imap", 5),
   ("ssh", 4), ("mysql", 5), ("postgresql", 5), ("mssql", 5),
   ("oracle", 5),
   ("http", 3), ("http-proxy", 3), ("apache", 3),
   ("https", 2), ("ssh-tunnel", 2), ("domain", 1)]

/-- `RiskScorer.COMMON_BACKDOOR_PORTS`. -/
def COMMON_BACKDOOR_PORTS : List Nat := [31337, 12345, 54321, 1337, 6666, 6667]

/-- `self.SERVICE_RISK.get(event.service, 2)`: a `None` service or a
service absent from the table defaults to 2. -/
def serviceRisk (service : Option String) : Int :=
  match service with
  | none => 2
  | some s =>
    match List.lookup s SERVICE_RISK with
    | some v => v
    | none => 2

/-- Python truthiness of an optional string: `None` and `""` are falsy. -/
def optStrTruthy : Option String → Bool
  | none => false
  | some s => s ≠ ""

/-- Python `needle in hay` on strings (substring containment). -/
def strContains (hay needle : String) : Bool :=
  (List.range (hay.toList.length + 1)).any
    (fun i => needle.toList.isPrefixOf (hay.toList.drop i))

/-- `RiskScorer._apply_port_modifiers`: `PRIVILEGED_PORTS = range(1, 1024)`,
backdoor set, `EPHEMERAL_PORTS = range(49152, 65536)`. -/
def applyPortModifiers (score : Int) (port : Nat) : Int :=
  let s1 := if 1 ≤ port ∧ port ≤ 1023 then score + 1 else score
  let s2 := if port ∈ COMMON_BACKDOOR_PORTS then s1 + 3 else s1
  if 49152 ≤ port ∧ port ≤ 65535 then s2 + 2 else s2

/-- `RiskScorer._apply_history_modifiers`. -/
def applyHistoryModifiers (score : Int) (history : Option PortHistoryRecord) : Int :=
  match history with
  | none => score + 2
  | some h =>
    let s1 :=
      if h.seen_count ≤ 2 then score + 3
      else if 10 ≤ h.seen_count then score - 1
      else score
    if h.current_state = "closed" then s1 + 2 else s1

/-- Models `float(version.split('.')[0]) < 7.0` with Python's `ValueError`
branch (`pass`): the leading dot-separated component is parsed as a
non-negative decimal integer (the shape of real scanner version strings);
an unparseable component yields `false`, i.e. no modifier. -/
def versionLeadingLtSeven (v : String) : Bool :=
  match ((v.splitOn ".").headD "").toNat? with
  | some n => n < 7
  | none => false

/-- `RiskScorer._apply_version_modifiers`: `if not event.version` adds 1;
then, under `if event.product:` (truthiness), the old-OpenSSH and
old-Apache checks each add 2. -/
def applyVersionModifiers (score : Int) (e : PortStateEvent) : Int :=
  let s1 := if optStrTruthy e.version then score else score + 1
  if optStrTruthy e.product then
    let pl := (e.product.getD "").toLower
    let s2 :=
      if strContains pl "openssh" ∧ optStrTruthy e.version ∧
          versionLeadingLtSeven (e.version.getD "") then s1 + 2
      else s1
    if strContains pl "apache" ∧ optStrTruthy e.version ∧
        (strContains (e.version.getD "") "2.2" ∨
         strContains (e.version.getD "") "2.0") then s2 + 2
    else s2
  else s1

/-- `RiskScorer.score_event`: base service risk, then port, history and
version modifiers, capped by `min(score, 10)`. -/
def score_event (e : PortStateEvent) (history : Option PortHistoryRecord) : Int :=
  if e.state ≠ "open" then 0
  else
    let s0 := serviceRisk e.service
    let s1 := applyPortModifiers s0 e.port
    let s2 := applyHistoryModifiers s1 history
    let s3 := applyVersionModifiers s2 e
    min s3 10

/-- `RiskScorer._get_risk_factors` (its `risk_score` argument is unused in
the source as well). -/
def get_risk_factors (e : PortStateEvent) (history : Option PortHistoryRecord)
    (riskScore : Int) : List String :=
  let _ := riskScore
  let factors : List String := []
  let factors :=
    if e.service = some "telnet" ∨ e.service = some "ftp" ∨
        e.service = some "rlogin" ∨ e.service = some "rsh" then
      factors ++ ["Unencrypted legacy protocol"]
    else if e.service = some "rdp" ∨ e.service = some "smb" ∨
        e.service = some "vnc" then
      factors ++ ["Common attack vector"]
    else factors
  let factors :=
    if e.port ∈ COMMON_BACKDOOR_PORTS then factors ++ ["Known backdoor port"]
    else factors
  let factors :=
    if 49152 ≤ e.port ∧ e.port ≤ 65535 then
      factors ++ ["Unusual port for services"]
    else factors
  let factors :=
    match history with
    | some h =>
      let factors :=
        if h.seen_count ≤ 2 then factors ++ ["Recently appeared"] else factors
      if h.current_state = "closed" then factors ++ ["Port reopened"]
      else factors
    | none => factors ++ ["First time detected"]
  let factors :=
    if optStrTruthy e.version then factors else factors ++ ["Version unknown"]
  if factors = [] then ["Standard risk for this service"] else factors

/-- One entry of the list returned by `RiskScorer.score_events`. -/
structure RiskAssessment where
  host : String
  port : Nat
  service : String
  product : Option String
  version : Option String
  risk : Int
  risk_factors : List String
  deriving DecidableEq

/-- The `port_histories` dict of `score_events`: `(host, port, protocol)`
to history data; `dict.get` is a total function into `Option`. -/
def Histories := String × Nat × String → Option PortHistoryRecord

/-- The body of the `for event in events` loop in `score_events`: the
assessment appended for one event, or `none` when `risk > 0` fails. -/
def mkAssessment (hists : Histories) (e : PortStateEvent) : Option RiskAssessment :=
  let history := hists (e.host, e.port, e.protocol)
  let risk := score_event e history
  if 0 < risk then
    some { host := e.host, port := e.port,
           service := e.service.getD "unknown",
           product := e.product, version := e.version,
           risk := risk,
           risk_factors := get_risk_factors e history risk }
  else none

/-- Stable insertion for descending order by `risk`: the inserted element
goes before the first element whose risk is not strictly greater. -/
def sortedInsert (x : RiskAssessment) : List RiskAssessment → List RiskAssessment
  | [] => [x]
  | y :: ys => if x.risk < y.risk then y :: sortedInsert x ys else x :: y :: ys

/-- `results.sort(key=lambda x: x["risk"], reverse=True)`: Python's sort is
stable, and a stable descending sort by a key is extensionally unique, so
this stable insertion sort is the same function. -/
def sortByRiskDesc : List RiskAssessment → List RiskAssessment
  | [] => []
  | x :: xs => sortedInsert x (sortByRiskDesc xs)

/-- `RiskScorer.score_events`: build an assessment per event with positive
risk, in input order, then sort descending by risk (stable). -/
def score_events (events : List PortStateEvent) (hists : Histories) :
    List RiskAssessment :=
  sortByRiskDesc (events.filterMap (mkAssessment hists))

/-! ## Storage engine (`logger/storage.py`) -/

/-- A row of the `scans` table as written by `StorageEngine.create_scan`
(`target_id` is always `None` on the `main.py` path and `duration` is an
opaque float read by nothing verified here; both are omitted). -/
structure ScanRow where
  id : Nat
  target_address : String
  profile : String
  timestamp : String
  status : String
  error_message : Option String
  deriving DecidableEq

/-- A row of the `port_events` table. -/
structure PortEventRow where
  scan_id : Nat
  host : String
  port : Nat
  protocol : String
  state : String
  service : Option String
  product : Option String
  version : Option String
  timestamp : String
  deriving DecidableEq

/-- The SQLite database behind `StorageEngine`. -/
structure Store where
  scans : List ScanRow
  port_events : List PortEventRow
  port_history : List PortHistoryRecord
  hosts : List (Nat × String)
  deriving DecidableEq

def emptyStore : Store := ⟨[], [], [], []⟩

/-- The key test of `_update_port_history`'s SELECT and of
`get_port_history`: `host = ? AND port = ? AND protocol = ?`. -/
def historyKeyMatches (r : PortHistoryRecord) (host : String) (port : Nat)
    (protocol : String) : Bool :=
  r.host == host && r.port == port && r.protocol == protocol

/-- `StorageEngine._update_port_history`: SELECT the row for the event's
`(host, port, protocol)` key; found → UPDATE that row's `last_seen`,
`seen_count + 1`, `current_state`; not found → INSERT a fresh row with
`seen_count = 1`, `first_seen = last_seen = timestamp`. The table is
unique on the key (schema), so first-match update is the row update. -/
def updatePortHistory (e : PortStateEvent) :
    List PortHistoryRecord → List PortHistoryRecord
  | [] => [⟨e.host, e.port, e.protocol, e.timestamp, e.timestamp, 1, e.state⟩]
  | r :: rs =>
    if historyKeyMatches r e.host e.port e.protocol then
      { r with last_seen := e.timestamp, seen_count := r.seen_count + 1,
               current_state := e.state } :: rs
    else r :: updatePortHistory e rs

/-- `StorageEngine.get_port_history`: the row for the key, if any. -/
def get_port_history (s : List PortHistoryRecord) (host : String) (port : Nat)
    (protocol : String) : Option PortHistoryRecord :=
  s.find? (fun r => historyKeyMatches r host port protocol)

/-- One iteration of the `for event in events` loop of
`StorageEngine.store_events`: host events go to `hosts`, port events go to
`port_events` and, when `state == "open"`, to `_update_port_history`. -/
def applyStoreEvent (scanId : Nat) (s : Store) : SecurityEvent → Store
  | .hostDiscovered h ts =>
    let _ := ts
    { s with hosts := s.hosts ++ [(scanId, h)] }
  | .portState e =>
    let s1 := { s with port_events := s.port_events ++
      [⟨scanId, e.host, e.port, e.protocol, e.state, e.service, e.product,
        e.version, e.timestamp⟩] }
    if e.state == "open" then
      { s1 with port_history := updatePortHistory e s1.port_history }
    else s1

/-- `StorageEngine.create_scan` on the `main.py` path (`status` keeps its
default `"completed"`, `error_message` its default `None`): one INSERT in
its own `sqlite3.connect` block, committed when the block exits. The
returned id models `cursor.lastrowid`. -/
def create_scan (s : Store) (target profile ts : String) : Store × Nat :=
  let id := s.scans.length + 1
  ({ s with scans := s.scans ++ [⟨id, target, profile, ts, "completed", none⟩] }, id)

/-- `StorageEngine.store_events`: one `sqlite3.connect` block over the
whole batch. `fails = true` models a `sqlite3.Error` escaping the block:
the block's transaction rolls back and nothing of it is committed. -/
def store_events_txn (scanId : Nat) (events : List SecurityEvent) (s : Store)
    (fails : Bool) : Option Store :=
  if fails then none
  else some (events.foldl (applyStoreEvent scanId) s)

/-- `StorageEngine.get_last_scan`: the `status = 'completed'` scan for the
target with the greatest timestamp (`ORDER BY timestamp DESC LIMIT 1`). -/
def get_last_scan (s : Store) (target : String) : Option ScanRow :=
  (s.scans.filter
    (fun r => r.target_address == target && r.status == "completed")).foldl
    (fun acc r =>
      match acc with
      | none => some r
      | some a => if a.timestamp < r.timestamp then some r else some a)
    none

/-- The storage section of `main.py` (lines 195-206): `create_scan` then
`store_events`, each in its own connection, so a `store_events` failure
leaves `create_scan`'s committed row behind while `main` reports the
storage error. -/
inductive IngestOutcome where
  | ok (s : Store) (scanId : Nat)
  | storageError (s : Store) (scanId : Nat)
  deriving DecidableEq

def runIngestion (s : Store) (target profile ts : String)
    (events : List SecurityEvent) (storeFails : Bool) : IngestOutcome :=
  let (s1, scanId) := create_scan s target profile ts
  match store_events_txn scanId events s1 storeFails with
  | some s2 => .ok s2 scanId
  | none => .storageError s1 scanId

/-- A sequence of successful ingestions against a store: for each batch,
its scan id and its events, applied through `store_events`. -/
def runBatches (batches : List (Nat × List SecurityEvent)) (s : Store) : Store :=
  batches.foldl (fun st b => b.2.foldl (applyStoreEvent b.1) st) s

/-! ## Change detector (`analyzer/diff.py`) -/

/-- `ChangeDetector._get_ports_for_scan`: the set of `(host, port)` pairs
of rows of `port_events` with this scan id and `state = 'open'`. -/
def getPortsForScan (s : Store) (scanId : Nat) : Finset (String × Nat) :=
  ((s.port_events.filter
      (fun r => r.scan_id == scanId && r.state == "open")).map
    (fun r => (r.host, r.port))).toFinset

/-- `ChangeDetector.detect_changes`: `(opened_ports, closed_ports)` as the
two set differences. -/
def detect_changes (s : Store) (oldScanId newScanId : Nat) :
    Finset (String × Nat) × Finset (String × Nat) :=
  let oldPorts := getPortsForScan s oldScanId
  let newPorts := getPortsForScan s newScanId
  (newPorts \ oldPorts, oldPorts \ newPorts)

/-! ## Score bound lemmas -/

lemma lookup_one_le {l : List (String × Int)} (hl : ∀ p ∈ l, 1 ≤ p.2) :
    ∀ s v, List.lookup s l = some v → 1 ≤ v := by
  induction l with
  | nil => intro s v h; simp [List.lookup] at h
  | cons p t ih =>
    intro s v h
    rw [List.lookup] at h
    by_cases hb : s == p.1
    · rw [hb] at h
      simp at h
      subst h
      exact hl p (by simp)
    · rw [Bool.of_not_eq_true hb] at h
      exact ih (fun q hq => hl q (by simp [hq])) s v h

lemma serviceRisk_one_le (service : Option String) : 1 ≤ serviceRisk service := by
  cases service with
  | none => simp [serviceRisk]
  | some s =>
    rw [serviceRisk]
    split
    · next v hl => exact lookup_one_le (by decide) s v hl
    · omega

lemma applyPortModifiers_le (score : Int) (port : Nat) :
    score ≤ applyPortModifiers score port := by
  rw [applyPortModifiers]
  split <;> split <;> split <;> omega

lemma applyHistoryModifiers_le (score : Int) (h : Option PortHistoryRecord) :
    score - 1 ≤ applyHistoryModifiers score h := by
  cases h with
  | none => rw [applyHistoryModifiers]; omega
  | some r =>
    rw [applyHistoryModifiers]
    split <;> split <;> omega

lemma applyVersionModifiers_le (score : Int) (e : PortStateEvent) :
    score ≤ applyVersionModifiers score e := by
  simp only [applyVersionModifiers]
  split
  · split <;> split <;> split <;> omega
  · split <;> omega

/-! ## Non-open events and ledger invariant lemmas -/

lemma score_event_nonopen {e : PortStateEvent} (h : Option PortHistoryRecord)
    (hs : e.state ≠ "open") : score_event e h = 0 := by
  simp [score_event, hs]

lemma mkAssessment_nonopen {e : PortStateEvent} (hists : Histories)
    (hs : e.state ≠ "open") : mkAssessment hists e = none := by
  simp [mkAssessment, score_event_nonopen _ hs]

lemma foldl_inv {α β : Type} (P : β → Prop) (f : β → α → β) (l : List α)
    (b : β) (hb : P b) (hstep : ∀ b a, P b → P (f b a)) : P (l.foldl f b) := by
  induction l generalizing b with
  | nil => exact hb
  | cons a t ih => exact ih (f b a) (hstep b a hb)

lemma mem_updatePortHistory {e : PortStateEvent} {t : List PortHistoryRecord}
    {r : PortHistoryRecord} (hr : r ∈ updatePortHistory e t) :
    r.current_state = e.state ∨ r ∈ t := by
  induction t with
  | nil =>
    simp [updatePortHistory] at hr
    subst hr
    exact Or.inl rfl
  | cons q qs ih =>
    rw [updatePortHistory] at hr
    by_cases hm : historyKeyMatches q e.host e.port e.protocol
    · rw [if_pos hm] at hr
      rcases List.mem_cons.mp hr with h1 | h1
      · subst h1; exact Or.inl rfl
      · exact Or.inr (List.mem_cons_of_mem q h1)
    · rw [if_neg hm] at hr
      rcases List.mem_cons.mp hr with h1 | h1
      · subst h1; exact Or.inr (List.mem_cons_self _ _)
      · rcases ih h1 with h2 | h2
        · exact Or.inl h2
        · exact Or.inr (List.mem_cons_of_mem q h2)

/-- The ledger-invariant predicate: every history row records "open". -/
def LedgerOpen (s : Store) : Prop :=
  ∀ r ∈ s.port_history, r.current_state = "open"

lemma applyStoreEvent_ledgerOpen (scanId : Nat) (s : Store)
    (ev : SecurityEvent) (hs : LedgerOpen s) :
    LedgerOpen (applyStoreEvent scanId s ev) := by
  cases ev with
  | hostDiscovered h ts => exact hs
  | portState e =>
    rw [applyStoreEvent]
    by_cases hopen : e.state == "open"
    · simp only [hopen, if_pos]
      intro r hr
      rcases mem_updatePortHistory hr with h1 | h1
      · rw [h1]; exact of_decide_eq_true hopen
      · exact hs r h1
    · simp only [hopen, if_neg]
      exact hs

lemma runBatches_ledgerOpen (batches : List (Nat × List SecurityEvent))
    (s : Store) (hs : LedgerOpen s) : LedgerOpen (runBatches batches s) := by
  rw [runBatches]
  refine foldl_inv LedgerOpen _ batches s hs (fun st b hst => ?_)
  exact foldl_inv LedgerOpen _ b.2 st hst
    (fun st2 ev hst2 => applyStoreEvent_ledgerOpen b.1 st2 ev hst2)

/-! ## Concrete inputs for the worked-scenario claims -/

/-- Worked scenario 2 event: service "ssh", port 22, state "open", no
product or version. -/
def c2Event : PortStateEvent :=
  ⟨"host-a", "2026-01-01T00:00:00", 22, "tcp", "open", some "ssh", none, none⟩

/-- Worked scenario 2 history: `seen_count = 15`, `current_state = "open"`. -/
def c2History : PortHistoryRecord :=
  ⟨"host-a", 22, "tcp", "2025-01-01T00:00:00", "2025-12-01T00:00:00", 15, "open"⟩

/-- Worked scenario 3 event: no service, port 31337, state "open". -/
def c3Event : PortStateEvent :=
  ⟨"host-a", "2026-01-01T00:00:00", 31337, "tcp", "open", none, none, none⟩

/-- An open event that scores zero: service "domain" (base 1), port 8080
(outside the privileged, backdoor and ephemeral sets), version present. -/
def c10Event : PortStateEvent :=
  ⟨"host-a", "2026-01-01T00:00:00", 8080, "tcp", "open", some "domain", none,
   some "9.16"⟩

/-- An established-history record for `c10Event`: `seen_count = 12`,
`current_state = "open"`. -/
def c10History : PortHistoryRecord :=
  ⟨"host-a", 8080, "tcp", "2025-01-01T00:00:00", "2025-12-01T00:00:00", 12, "open"⟩

def c10Histories : Histories :=
  fun k => if k = ("host-a", 8080, "tcp") then some c10History else none

/-- The event of the failing ingestion used against claim C1. -/
def c1Event : PortStateEvent :=
  ⟨"host-a", "2026-01-01T00:00:00", 23, "tcp", "open", some "telnet", none, none⟩

/-- The scan row that `create_scan` commits before `store_events` runs. -/
def c1ScanRow : ScanRow :=
  ⟨1, "host-a", "fast", "2026-01-01T00:00:00", "completed", none⟩

/-- The store left behind by the failed ingestion: the committed scan row
and nothing else. -/
def c1FailedStore : Store := ⟨[c1ScanRow], [], [], []⟩

/-! ## Claim theorems -/

/-- C1: ingesting a batch that fails during `store_events` is claimed to
leave no observable half-recorded scan; the code instead leaves the
`create_scan` row (status "completed") committed by its own separate
connection, `get_last_scan` reports that scan as the latest completed one
for the target (hence available as a `diff` baseline), and zero events of
the batch are stored. -/
theorem claim_c1_failed_ingestion_reported_available :
    runIngestion emptyStore "host-a" "fast" "2026-01-01T00:00:00"
        [.portState c1Event] true = .storageError c1FailedStore 1 ∧
    get_last_scan c1FailedStore "host-a" = some c1ScanRow ∧
    c1FailedStore.port_events = [] ∧
    getPortsForScan c1FailedStore 1 = ∅ := by
  refine ⟨by decide, by decide, rfl, rfl⟩

/-- C2 counterexample: on the worked scenario 2 input the code does not
return 4. -/
theorem claim_c2_counterexample :
    score_event c2Event (some c2History) ≠ 4 := by decide

/-- C2 amended: the scenario 2 score is 5, because the absent version
string adds the +1 "no version info" modifier the spec's arithmetic
omits (base 4 + 1 privileged − 1 established + 1 no version). -/
theorem claim_c2_amended_score_five :
    score_event c2Event (some c2History) = 5 := by decide

/-- C3 counterexample: on the worked scenario 3 input the code does not
return 7. -/
theorem claim_c3_counterexample :
    score_event c3Event none ≠ 7 := by decide

/-- C3 amended: the scenario 3 score is 8 (base 2 + 3 backdoor + 2 no
history + 1 no version), and the factors include "Known backdoor port"
and "First time detected". -/
theorem claim_c3_amended_score_eight :
    score_event c3Event none = 8 ∧
    "Known backdoor port" ∈ get_risk_factors c3Event none 8 ∧
    "First time detected" ∈ get_risk_factors c3Event none 8 := by decide

/-- C9: `diff(S, S)` has empty opened and closed sets, and for any two
scan ids the opened and closed sets are disjoint. -/
theorem claim_c9_diff_idempotent_disjoint (s : Store) (a b : Nat) :
    (detect_changes s a a).1 = ∅ ∧ (detect_changes s a a).2 = ∅ ∧
    Disjoint (detect_changes s a b).1 (detect_changes s a b).2 := by
  refine ⟨?_, ?_, ?_⟩
  · simp [detect_changes]
  · simp [detect_changes]
  · exact disjoint_sdiff_sdiff

/-- C10: an open event can score zero and be dropped from the batch
output: service "domain" on port 8080 with a version string, against an
established open history, scores 0 and yields no assessment. -/
theorem claim_c10_open_event_scored_zero_omitted :
    c10Event.state = "open" ∧
    score_event c10Event (some c10History) = 0 ∧
    score_events [c10Event] c10Histories = [] := by decide

/-- C4: for every event and every optional history record the score lies
in [0, 10]: the upper clamp `min(score, 10)` caps it above, and below it
cannot drop under 0 because the base score is at least 1 and the only
negative modifier is the single −1 for established history. -/
theorem claim_c4_score_bounded (e : PortStateEvent)
    (h : Option PortHistoryRecord) :
    0 ≤ score_event e h ∧ score_event e h ≤ 10 := by
  rw [score_event]
  split
  · omega
  · have h0 := serviceRisk_one_le e.service
    have h1 := applyPortModifiers_le (serviceRisk e.service) e.port
    have h2 := applyHistoryModifiers_le (applyPortModifiers (serviceRisk e.service) e.port) h
    have h3 := applyVersionModifiers_le
      (applyHistoryModifiers (applyPortModifiers (serviceRisk e.service) e.port) h) e
    constructor
    · exact le_min (by omega) (by omega)
    · exact min_le_right _ _

/-- An everywhere-empty `port_histories` dict. -/
def noHistories : Histories := fun _ => none

/-- A closed-state event for the C8 witness. -/
def c8Event : PortStateEvent :=
  ⟨"host-a", "2026-01-01T00:00:00", 80, "tcp", "closed", some "http", none, none⟩

/-- C8: an event whose state is not "open" scores 0, produces no
assessment (hence no factor list) in the `score_events` loop, and its
presence anywhere in the input batch leaves the `score_events` output
unchanged. -/
theorem claim_c8_non_open_zero_excluded (e : PortStateEvent)
    (h : Option PortHistoryRecord) (hists : Histories)
    (es1 es2 : List PortStateEvent) (hs : e.state ≠ "open") :
    score_event e h = 0 ∧ mkAssessment hists e = none ∧
    score_events (es1 ++ e :: es2) hists = score_events (es1 ++ es2) hists := by
  refine ⟨score_event_nonopen h hs, mkAssessment_nonopen hists hs, ?_⟩
  simp [score_events, List.filterMap_append, List.filterMap_cons,
    mkAssessment_nonopen hists hs]

/-- C8 witness at the concrete closed-port event. -/
theorem claim_c8_non_open_zero_excluded_witness :
    c8Event.state ≠ "open" ∧
    (score_event c8Event none = 0 ∧ mkAssessment noHistories c8Event = none ∧
     score_events ([] ++ c8Event :: []) noHistories =
       score_events ([] ++ []) noHistories) :=
  ⟨by decide,
   claim_c8_non_open_zero_excluded c8Event none noHistories [] [] (by decide)⟩

/-- C5: every history record in a store reachable by any sequence of
`store_events` batches from the empty store has `current_state = "open"`
(the ingestion path only calls `_update_port_history` for open events and
writes `event.state` verbatim), so the scorer's +2 "reopened" branch
(`current_state == 'closed'`) never fires on such a record: its history
modifier is exactly the first-branch adjustment. -/
theorem claim_c5_ledger_always_open
    (batches : List (Nat × List SecurityEvent)) (r : PortHistoryRecord)
    (hr : r ∈ (runBatches batches emptyStore).port_history) :
    r.current_state = "open" ∧
    ∀ sc : Int, applyHistoryModifiers sc (some r) =
      if r.seen_count ≤ 2 then sc + 3
      else if 10 ≤ r.seen_count then sc - 1
      else sc := by
  have hopen : r.current_state = "open" :=
    runBatches_ledgerOpen batches emptyStore (by intro r hr; simp [emptyStore] at hr) r hr
  refine ⟨hopen, fun sc => ?_⟩
  simp [applyHistoryModifiers, hopen]

/-- C5 witness: one ingested open event yields a ledger record with
`current_state = "open"` whose history modifier is the +3
recently-appeared branch, with no reopened bonus. -/
theorem claim_c5_ledger_always_open_witness :
    (⟨"host-a", 23, "tcp", "2026-01-01T00:00:00", "2026-01-01T00:00:00", 1,
      "open"⟩ : PortHistoryRecord) ∈
      (runBatches [(1, [.portState c1Event])] emptyStore).port_history ∧
    (⟨"host-a", 23, "tcp", "2026-01-01T00:00:00", "2026-01-01T00:00:00", 1,
      "open"⟩ : PortHistoryRecord).current_state = "open" :=
  ⟨by decide,
   (claim_c5_ledger_always_open [(1, [.portState c1Event])] _ (by decide)).1⟩

/-! ## Ledger observation lemmas (C6) -/

lemma get_port_history_nil (host : String) (port : Nat) (protocol : String) :
    get_port_history [] host port protocol = none := rfl

lemma get_update_self (e : PortStateEvent) (t : List PortHistoryRecord) :
    get_port_history (updatePortHistory e t) e.host e.port e.protocol =
      some (match get_port_history t e.host e.port e.protocol with
        | none => ⟨e.host, e.port, e.protocol, e.timestamp, e.timestamp, 1, e.state⟩
        | some r => { r with last_seen := e.timestamp,
                             seen_count := r.seen_count + 1,
                             current_state := e.state }) := by
  induction t with
  | nil =>
    simp [updatePortHistory, get_port_history, List.find?, historyKeyMatches]
  | cons q qs ih =>
    rw [updatePortHistory]
    by_cases hm : historyKeyMatches q e.host e.port e.protocol
    · rw [if_pos hm]
      have hm2 : historyKeyMatches
          { q with last_seen := e.timestamp, seen_count := q.seen_count + 1,
                   current_state := e.state } e.host e.port e.protocol := by
        simpa [historyKeyMatches] using hm
      simp [get_port_history, List.find?, hm, hm2]
    · rw [if_neg hm]
      have hm' : historyKeyMatches q e.host e.port e.protocol = false :=
        Bool.of_not_eq_true hm
      simp only [get_port_history, List.find?, hm'] at ih ⊢
      exact ih

/-- One open observation of the key `(host, port, protocol)` by every
event of `es`. -/
def ObservesKey (host : String) (port : Nat) (protocol : String)
    (es : List PortStateEvent) : Prop :=
  ∀ e ∈ es, e.host = host ∧ e.port = port ∧ e.protocol = protocol ∧
    e.state = "open"

lemma observe_fold_count (host : String) (port : Nat) (protocol : String)
    (es : List PortStateEvent) (hall : ObservesKey host port protocol es) :
    ∀ (t : List PortHistoryRecord) (r : PortHistoryRecord),
      get_port_history t host port protocol = some r →
      ∃ r', get_port_history (es.foldl (fun t e => updatePortHistory e t) t)
          host port protocol = some r' ∧
        r'.seen_count = r.seen_count + es.length ∧ r'.first_seen = r.first_seen := by
  induction es with
  | nil => intro t r hr; exact ⟨r, hr, by simp, rfl⟩
  | cons e es ih =>
    intro t r hr
    obtain ⟨he1, he2, he3, _⟩ := hall e (List.mem_cons_self e es)
    have hstep := get_update_self e t
    rw [he1, he2, he3, hr] at hstep
    obtain ⟨r', hr', hc', hf'⟩ :=
      ih (fun x hx => hall x (List.mem_cons_of_mem e hx)) _ _ hstep
    refine ⟨r', hr', ?_, hf'⟩
    rw [hc']
    simp
    omega

/-- C6: claim theorem.  First conjunct: the first open observation of a
fresh key creates the record with `seen_count = 1` and
`first_seen = last_seen =` the event's timestamp.  Second conjunct: a
further open observation of an existing record increments `seen_count` by
exactly 1 and advances `last_seen` to the new timestamp.  Third conjunct:
N ≥ 1 observations from a fresh key give `seen_count = N`, with
`first_seen` fixed by the first event. -/
theorem claim_c6_observe_counts (t0 : List PortHistoryRecord) (host : String)
    (port : Nat) (protocol : String)
    (h0 : get_port_history t0 host port protocol = none) :
    (∀ e : PortStateEvent, e.host = host → e.port = port →
      e.protocol = protocol → e.state = "open" →
      get_port_history (updatePortHistory e t0) host port protocol =
        some ⟨host, port, protocol, e.timestamp, e.timestamp, 1, "open"⟩) ∧
    (∀ (t : List PortHistoryRecord) (r : PortHistoryRecord)
        (e : PortStateEvent),
      get_port_history t host port protocol = some r →
      e.host = host → e.port = port → e.protocol = protocol →
      e.state = "open" →
      get_port_history (updatePortHistory e t) host port protocol =
        some { r with seen_count := r.seen_count + 1,
                      last_seen := e.timestamp, current_state := "open" }) ∧
    (∀ es : List PortStateEvent, ObservesKey host port protocol es →
      es ≠ [] →
      ∃ r, get_port_history (es.foldl (fun t e => updatePortHistory e t) t0)
          host port protocol = some r ∧ r.seen_count = es.length) := by
  refine ⟨?_, ?_, ?_⟩
  · intro e he1 he2 he3 he4
    have h := get_update_self e t0
    rw [he1, he2, he3, h0] at h
    rw [h]
    simp [he4]
  · intro t r e hr he1 he2 he3 he4
    have h := get_update_self e t
    rw [he1, he2, he3, hr] at h
    rw [h]
    simp [he4]
  · intro es hall hne
    cases es with
    | nil => exact absurd rfl hne
    | cons e es' =>
      obtain ⟨he1, he2, he3, _⟩ := hall e (List.mem_cons_self e es')
      have hstep := get_update_self e t0
      rw [he1, he2, he3, h0] at hstep
      obtain ⟨r', hr', hc', _⟩ := observe_fold_count host port protocol es'
        (fun x hx => hall x (List.mem_cons_of_mem e hx)) _ _ hstep
      refine ⟨r', by simpa using hr', ?_⟩
      rw [hc']
      simp
      omega

/-- C6 witness: two open observations of a fresh key. -/
theorem claim_c6_observe_counts_witness :
    get_port_history [] "host-a" 80 "tcp" = none ∧
    get_port_history
        (updatePortHistory
          ⟨"host-a", "2026-01-01T00:00:00", 80, "tcp", "open", none, none, none⟩
          []) "host-a" 80 "tcp" =
      some ⟨"host-a", 80, "tcp", "2026-01-01T00:00:00", "2026-01-01T00:00:00",
            1, "open"⟩ :=
  ⟨rfl,
   (claim_c6_observe_counts [] "host-a" 80 "tcp" rfl).1
     ⟨"host-a", "2026-01-01T00:00:00", 80, "tcp", "open", none, none, none⟩
     rfl rfl rfl rfl⟩

/-! ## Sorting lemmas for `score_events` (C7) -/

lemma mem_sortedInsert {x y : RiskAssessment} {l : List RiskAssessment} :
    y ∈ sortedInsert x l ↔ y = x ∨ y ∈ l := by
  induction l with
  | nil => simp [sortedInsert]
  | cons q qs ih =>
    rw [sortedInsert]
    split
    · simp only [List.mem_cons, ih]
      tauto
    · simp only [List.mem_cons]

lemma mem_sortByRiskDesc {y : RiskAssessment} {l : List RiskAssessment} :
    y ∈ sortByRiskDesc l ↔ y ∈ l := by
  induction l with
  | nil => simp [sortByRiskDesc]
  | cons q qs ih =>
    rw [sortByRiskDesc]
    simp only [mem_sortedInsert, ih, List.mem_cons]

lemma sorted_sortedInsert (x : RiskAssessment) (l : List RiskAssessment)
    (hl : l.Sorted (fun a b => b.risk ≤ a.risk)) :
    (sortedInsert x l).Sorted (fun a b => b.risk ≤ a.risk) := by
  induction l with
  | nil => simp [sortedInsert]
  | cons q qs ih =>
    rw [List.sorted_cons] at hl
    rw [sortedInsert]
    split
    · next hlt =>
      rw [List.sorted_cons]
      refine ⟨fun b hb => ?_, ih hl.2⟩
      rcases mem_sortedInsert.mp hb with h1 | h1
      · rw [h1]; omega
      · exact hl.1 b h1
    · next hge =>
      rw [List.sorted_cons]
      refine ⟨fun b hb => ?_, List.sorted_cons.mpr hl⟩
      rcases List.mem_cons.mp hb with h1 | h1
      · rw [h1]; omega
      · have := hl.1 b h1
        omega

lemma sorted_sortByRiskDesc (l : List RiskAssessment) :
    (sortByRiskDesc l).Sorted (fun a b => b.risk ≤ a.risk) := by
  induction l with
  | nil => simp [sortByRiskDesc]
  | cons q qs ih => exact sorted_sortedInsert q (sortByRiskDesc qs) ih

lemma filter_sortedInsert_eq (x : RiskAssessment) (l : List RiskAssessment)
    (c : Int) (hx : x.risk = c) :
    (sortedInsert x l).filter (fun a => a.risk == c) =
      x :: l.filter (fun a => a.risk == c) := by
  induction l with
  | nil => simp [sortedInsert, List.filter, hx]
  | cons q qs ih =>
    rw [sortedInsert]
    split
    · next hlt =>
      have hq : (q.risk == c) = false := by
        simp only [beq_eq_false_iff_ne, ne_eq]
        omega
      simp only [List.filter, hq, ih]
    · simp [List.filter, hx]

lemma filter_sortedInsert_ne (x : RiskAssessment) (l : List RiskAssessment)
    (c : Int) (hx : x.risk ≠ c) :
    (sortedInsert x l).filter (fun a => a.risk == c) =
      l.filter (fun a => a.risk == c) := by
  have hxb : (x.risk == c) = false := by
    simp only [beq_eq_false_iff_ne, ne_eq]
    exact hx
  induction l with
  | nil => simp [sortedInsert, List.filter, hxb]
  | cons q qs ih =>
    rw [sortedInsert]
    split
    · simp only [List.filter, ih]
    · simp only [List.filter, hxb]

lemma filter_sortByRiskDesc (l : List RiskAssessment) (c : Int) :
    (sortByRiskDesc l).filter (fun a => a.risk == c) =
      l.filter (fun a => a.risk == c) := by
  induction l with
  | nil => simp [sortByRiskDesc]
  | cons q qs ih =>
    rw [sortByRiskDesc]
    by_cases hq : q.risk = c
    · rw [filter_sortedInsert_eq q (sortByRiskDesc qs) c hq, ih]
      have hqb : (q.risk == c) = true := by
        simpa using hq
      simp [List.filter, hqb]
    · rw [filter_sortedInsert_ne q (sortByRiskDesc qs) c hq, ih]
      have hqb : (q.risk == c) = false := by
        simp only [beq_eq_false_iff_ne, ne_eq]
        exact hq
      simp [List.filter, hqb]

lemma mkAssessment_pos {hists : Histories} {e : PortStateEvent}
    {a : RiskAssessment} (h : mkAssessment hists e = some a) : 0 < a.risk := by
  rw [mkAssessment] at h
  split at h
  · next hpos =>
    rw [Option.some.injEq] at h
    rw [← h]
    exact hpos
  · exact absurd h (by simp)

/-- C7: the `score_events` output contains only positive-risk
assessments, is sorted descending by risk, and equal-risk assessments
keep the relative order of the per-event assessment stream built from the
input list (stability of the sort). -/
theorem claim_c7_score_all_sorted_filtered_stable
    (events : List PortStateEvent) (hists : Histories) :
    (∀ a ∈ score_events events hists, 0 < a.risk) ∧
    (score_events events hists).Sorted (fun a b => b.risk ≤ a.risk) ∧
    (∀ c : Int, (score_events events hists).filter (fun a => a.risk == c) =
      (events.filterMap (mkAssessment hists)).filter (fun a => a.risk == c)) := by
  refine ⟨?_, ?_, ?_⟩
  · intro a ha
    rw [score_events, mem_sortByRiskDesc, List.mem_filterMap] at ha
    obtain ⟨e, _, he⟩ := ha
    exact mkAssessment_pos he
  · exact sorted_sortByRiskDesc _
  · intro c
    exact filter_sortByRiskDesc _ c

/-- The event of the C7 witness: open telnet on port 23. -/
def c7Event : PortStateEvent :=
  ⟨"host-b", "2026-01-01T00:00:00", 23, "tcp", "open", some "telnet", none, none⟩

/-- The assessment `score_events` produces for `c7Event`. -/
def c7Assessment : RiskAssessment :=
  ⟨"host-b", 23, "telnet", none, none, 10,
   ["Unencrypted legacy protocol", "First time detected", "Version unknown"]⟩

/-- C7 witness: the concrete assessment is in the output and has positive
risk. -/
theorem claim_c7_score_all_sorted_filtered_stable_witness :
    c7Assessment ∈ score_events [c7Event] noHistories ∧ 0 < c7Assessment.risk :=
  ⟨by decide,
   (claim_c7_score_all_sorted_filtered_stable [c7Event] noHistories).1
     c7Assessment (by decide)⟩

end AttackSurfaceX
